import Mathlib

set_option maxRecDepth 8000
set_option maxHeartbeats 2000000

/-!
Verification of the Mirai Cook ingredient-line parser (`src/utils.py`).

The development is a shallow embedding of `parse_ingredient_string`,
`_parse_quantity` and the unit lexicon `COMMON_UNITS` (`src/units.py`).

Modelling conventions:
* Python strings are Lean `String`s; the char-level work is done on `List Char`.
* Python floats are modelled as exact rationals (`ℚ`).  Every numeric value
  appearing in a verified statement (`0.5`, `1.5`, `100.0`, `0.0`) is exactly
  representable in binary floating point, and the sign of a parsed value is
  float-exact, so nothing proved here depends on rounding.
* `int(...)` / `float(...)` are modelled by `pyInt?` / `pyFloat?` returning
  `Option`; the `Except`-valued variants `pyIntE` / `pyFloatE` model the fact
  that in Python these calls raise `ValueError`, which `_parse_quantity`
  catches.  The modelled subset of `float` covers the decimal forms
  (optional sign, digits, one dot); exponents, `inf`/`nan` and underscore
  separators never occur in the strings the program feeds to these calls.
* Each of the six regular expressions in `parse_ingredient_string` is embedded
  as a dedicated backtracking matcher.  Every quantified subpattern in those
  regexes is a single-character class, so greedy (`\d+`, `\s*`, `.*`) and lazy
  (`.*?`) quantifiers are embedded as longest-first, respectively
  shortest-first, enumerations of the possible splits, alternations are tried
  in source order, and the first full match wins — exactly Python's leftmost
  backtracking semantics.  `$` is embedded as end-of-input: Python's `$` also
  matches before a trailing newline, but the line handed to the patterns has
  been stripped of surrounding whitespace, so it never ends in a newline.
* `\s`, `\d`, whitespace stripping and lowercasing are modelled on their
  ASCII behaviour; the unit lexicon and every string in a verified statement
  are ASCII.
-/

/-! ## Python string primitives -/

/-- Python `\s` / `str.strip` whitespace (ASCII part). -/
def isPySpace (c : Char) : Bool :=
  c == ' ' || c == '\t' || c == '\n' || c == '\r' || c == '\x0b' || c == '\x0c'

/-- `str.lstrip()` on char lists. -/
def pyStripL (cs : List Char) : List Char := cs.dropWhile isPySpace

/-- `str.strip()` on char lists. -/
def pyStripBoth (cs : List Char) : List Char :=
  ((cs.dropWhile isPySpace).reverse.dropWhile isPySpace).reverse

/-- `str.strip()` on strings. -/
def pyStrip (s : String) : String := String.mk (pyStripBoth s.data)

/-- `str.lower()` (ASCII behaviour; the unit lexicon it is compared against is
all-ASCII). -/
def pyLower (s : String) : String := String.mk (s.data.map Char.toLower)

/-- `str.rstrip('.')`: drop all trailing dots. -/
def rstripDots (cs : List Char) : List Char :=
  (cs.reverse.dropWhile (· == '.')).reverse

/-- `str.replace(',', '.')` (single-char replace is a map). -/
def replaceCommaDot (cs : List Char) : List Char :=
  cs.map (fun c => if c = ',' then '.' else c)

/-- `str.split(sep)` for a single-char separator, all occurrences
(auxiliary, with an accumulator for the current field). -/
def splitAllAux (sep : Char) : List Char → List Char → List (List Char)
  | [], acc => [acc.reverse]
  | c :: rest, acc =>
    if c = sep then acc.reverse :: splitAllAux sep rest []
    else splitAllAux sep rest (c :: acc)

/-- `str.split(sep)` for a single-char separator. -/
def splitAll (sep : Char) (cs : List Char) : List (List Char) :=
  splitAllAux sep cs []

/-- `str.split(sep, 1)`: the part before the first separator, and the part
after it when the separator occurs. -/
def splitFirst (sep : Char) : List Char → List Char × Option (List Char)
  | [] => ([], none)
  | c :: rest =>
    if c = sep then ([], some rest)
    else (c :: (splitFirst sep rest).1, (splitFirst sep rest).2)

/-- Python `int(str)`: surrounding whitespace stripped, optional sign,
non-empty digit run.  (Underscore separators and non-ASCII digits are not
modelled; no string the program produces contains them.) -/
def digitsVal? (cs : List Char) : Option Nat :=
  if cs = [] then none
  else if cs.all Char.isDigit then
    some (cs.foldl (fun n c => n * 10 + (c.toNat - '0'.toNat)) 0)
  else none

/-- Python `int(str)` as an `Option`. -/
def pyInt? (cs : List Char) : Option Int :=
  match pyStripBoth cs with
  | [] => none
  | c :: rest =>
    if c = '-' then (digitsVal? rest).map (fun n => -(n : Int))
    else if c = '+' then (digitsVal? rest).map (fun n => (n : Int))
    else (digitsVal? (c :: rest)).map (fun n => (n : Int))

/-- Unsigned decimal literal: `digits`, `digits.digits`, `digits.` or
`.digits`, valued as an exact rational. -/
def decCore? (cs : List Char) : Option ℚ :=
  match splitFirst '.' cs with
  | (ip, none) => (digitsVal? ip).map (fun n => (n : ℚ))
  | (ip, some fp) =>
    if fp.contains '.' then none
    else if ip = [] then
      (digitsVal? fp).map (fun n => (n : ℚ) / (10 : ℚ) ^ fp.length)
    else if fp = [] then
      (digitsVal? ip).map (fun n => (n : ℚ))
    else
      match digitsVal? ip, digitsVal? fp with
      | some a, some b => some ((a : ℚ) + (b : ℚ) / (10 : ℚ) ^ fp.length)
      | _, _ => none

/-- Python `float(str)` as an `Option` (decimal forms; see header). -/
def pyFloat? (cs : List Char) : Option ℚ :=
  match pyStripBoth cs with
  | [] => none
  | c :: rest =>
    if c = '-' then (decCore? rest).map (fun q => -q)
    else if c = '+' then decCore? rest
    else decCore? (c :: rest)

/-- Python `int(...)` with its exception: `ValueError` on failure. -/
def pyIntE (cs : List Char) : Except String Int :=
  match pyInt? cs with
  | some v => Except.ok v
  | none => Except.error "ValueError: invalid literal for int"

/-- Python `float(...)` with its exception: `ValueError` on failure. -/
def pyFloatE (cs : List Char) : Except String ℚ :=
  match pyFloat? cs with
  | some v => Except.ok v
  | none => Except.error "ValueError: could not convert string to float"

/-- The `except (ValueError, ZeroDivisionError, IndexError): return None`
handler of `_parse_quantity`. -/
def pyCatch (x : Except String (Option ℚ)) : Option ℚ :=
  match x with
  | Except.ok v => v
  | Except.error _ => none

/-! ## `_parse_quantity` -/

/-- Embedding of `_parse_quantity` (src/utils.py lines 198-219), the caught,
`Option`-valued observable behaviour.  The body first strips the argument and
replaces `,` by `.`; a string without `/` goes to `float`; a string with `/`
and a literal space is treated as a mixed number `whole parts[1]`; otherwise
as a simple fraction.  Failed conversions and a two-part split that is not
exactly `num/den` are the caught `ValueError`s; a zero denominator returns
`None` explicitly. -/
def parse_quantityCore (s : List Char) : Option ℚ :=
  if ¬ s.contains '/' then pyFloat? s
  else if s.contains ' ' then
    match splitFirst ' ' s with
    | (p0, some p1) =>
      match pyInt? p0 with
      | none => none
      | some whole =>
        match splitAll '/' p1 with
        | [a, b] =>
          match pyInt? a, pyInt? b with
          | some num, some den =>
            if den = 0 then none
            else some ((whole : ℚ) + (num : ℚ) / (den : ℚ))
          | _, _ => none
        | _ => none
    | (_, none) => none
  else
    match splitAll '/' s with
    | [a, b] =>
      match pyInt? a, pyInt? b with
      | some num, some den =>
        if den = 0 then none
        else some ((num : ℚ) / (den : ℚ))
      | _, _ => none
    | _ => none

/-- Embedding of `_parse_quantity`: the argument is stripped and `,` replaced
by `.` first, then classified by `parse_quantityCore`. -/
def parse_quantity (qty : String) : Option ℚ :=
  parse_quantityCore (replaceCommaDot (pyStripBoth qty.data))

/-- The `try:` body of `_parse_quantity` with Python's exception semantics
made explicit: `int`/`float` conversions and tuple unpacking may raise, and
the raised error propagates.  `parse_quantity` is this body caught by
`pyCatch` (claim C3). -/
def parse_quantityECore (s : List Char) : Except String (Option ℚ) :=
  if ¬ s.contains '/' then
    match pyFloatE s with
    | Except.ok v => Except.ok (some v)
    | Except.error e => Except.error e
  else if s.contains ' ' then
    match splitFirst ' ' s with
    | (p0, some p1) =>
      match pyIntE p0 with
      | Except.error e => Except.error e
      | Except.ok whole =>
        match splitAll '/' p1 with
        | [a, b] =>
          match pyIntE a, pyIntE b with
          | Except.ok num, Except.ok den =>
            if den = 0 then Except.ok none
            else Except.ok (some ((whole : ℚ) + (num : ℚ) / (den : ℚ)))
          | Except.error e, _ => Except.error e
          | _, Except.error e => Except.error e
        | _ => Except.error "ValueError: unpacking"
    | (_, none) => Except.error "IndexError"
  else
    match splitAll '/' s with
    | [a, b] =>
      match pyIntE a, pyIntE b with
      | Except.ok num, Except.ok den =>
        if den = 0 then Except.ok none
        else Except.ok (some ((num : ℚ) / (den : ℚ)))
      | Except.error e, _ => Except.error e
      | _, Except.error e => Except.error e
    | _ => Except.error "ValueError: unpacking"

/-- The `try:` body of `_parse_quantity`, applied after strip and comma
replacement, with exceptions propagating. -/
def parse_quantityE (qty : String) : Except String (Option ℚ) :=
  parse_quantityECore (replaceCommaDot (pyStripBoth qty.data))

/-! ## The unit lexicon (`src/units.py`) -/

/-- `COMMON_UNITS` from src/units.py, in source order (alternation order in
the built regex). -/
def COMMON_UNITS : List String :=
  ["g", "gr", "grammo", "grammi",
   "etto", "etti", "hg",
   "chilogrammo", "chilogrammi", "chilo", "chili", "kg",
   "ml", "millilitro", "millilitri",
   "cl", "centilitro", "centilitri",
   "dl", "decilitro", "decilitri",
   "l", "lt", "litro", "litri",
   "pz", "pezzo", "pezzi", "confezione", "confezioni", "scatola", "scatole",
   "lattina", "lattine",
   "cucchiaio", "cucchiai", "cucchiaino", "cucchiaini",
   "bicchiere", "bicchieri",
   "fetta", "fette", "spicchio", "spicchi",
   "rametto", "rametti", "mazzetto", "mazzetti", "gambo", "gambi",
   "cespo", "cespi",
   "pizzico", "qb", "q.b", "q.b.", "busta", "buste", "foglia", "foglie"]

/-- The unit alternatives as char lists (each alternative is `re.escape`d in
the source, i.e. a literal). -/
def unitLits : List (List Char) := COMMON_UNITS.map String.data

/-! ## Generic backtracking pieces

`splitsDesc p cs` enumerates the ways a greedy `p*` can split `cs` into
(consumed, rest), longest consumed first; `splits1Desc` is greedy `p+`;
`splitsAsc` is lazy `p*?`.  `firstSome` is the backtracking search: the
first alternative that lets the remainder of the pattern succeed wins. -/

/-- Greedy `p*`: splits longest-first. -/
def splitsDesc (p : Char → Bool) (cs : List Char) : List (List Char × List Char) :=
  (List.range ((cs.takeWhile p).length + 1)).reverse.map
    (fun k => (cs.take k, cs.drop k))

/-- Greedy `p+`: splits longest-first, at least one char. -/
def splits1Desc (p : Char → Bool) (cs : List Char) : List (List Char × List Char) :=
  (List.range (cs.takeWhile p).length).reverse.map
    (fun k => (cs.take (k + 1), cs.drop (k + 1)))

/-- Lazy `p*?`: splits shortest-first. -/
def splitsAsc (p : Char → Bool) (cs : List Char) : List (List Char × List Char) :=
  (List.range ((cs.takeWhile p).length + 1)).map
    (fun k => (cs.take k, cs.drop k))

/-- First alternative on which `f` succeeds (backtracking search). -/
def firstSome {α β : Type} (f : α → Option β) : List α → Option β
  | [] => none
  | a :: as =>
    match f a with
    | some b => some b
    | none => firstSome f as

/-- Flattened alternative lists, preserving order. -/
def listFlat {α β : Type} (f : α → List β) : List α → List β
  | [] => []
  | a :: as => f a ++ listFlat f as

/-- Case-insensitive literal match (Python `re.IGNORECASE` on an escaped
literal); returns the consumed input chars (original case) and the rest. -/
def matchLitCI : List Char → List Char → Option (List Char × List Char)
  | [], cs => some ([], cs)
  | _ :: _, [] => none
  | l :: ls, c :: cs =>
    if c.toLower == l.toLower then
      (matchLitCI ls cs).map (fun p => (c :: p.1, p.2))
    else none

/-- Optional trailing dot `\.?`, greedy: with-dot first. -/
def dotOptSplits (pre : List Char) (cs : List Char) : List (List Char × List Char) :=
  match cs with
  | '.' :: r => [(pre ++ ['.'], r), (pre, cs)]
  | _ => [(pre, cs)]

/-- The `UNIT_PATTERN` alternation `(?:u1|u2|...)\.?`, matched
case-insensitively: alternatives in lexicon order, each with the greedy
optional dot. -/
def unitSplits (cs : List Char) : List (List Char × List Char) :=
  listFlat
    (fun u =>
      match matchLitCI u cs with
      | some p => dotOptSplits p.1 p.2
      | none => [])
    unitLits

/-! ## `NUMBER_PATTERN`

`(?:\d*[\.,]\d+|\d+\s*\/\s*\d+|\d+\s+\d+\s*\/\s*\d+|\d+)`, alternatives in
source order; each enumeration is in Python's backtracking order. -/

/-- Alternative 1: `\d*[\.,]\d+`. -/
def numAlt1 (cs : List Char) : List (List Char × List Char) :=
  listFlat
    (fun d1 =>
      match d1.2 with
      | c :: r2 =>
        if c == '.' || c == ',' then
          (splits1Desc Char.isDigit r2).map (fun d2 => (d1.1 ++ c :: d2.1, d2.2))
        else []
      | [] => [])
    (splitsDesc Char.isDigit cs)

/-- Alternative 2: `\d+\s*\/\s*\d+`. -/
def numAlt2 (cs : List Char) : List (List Char × List Char) :=
  listFlat
    (fun d1 =>
      listFlat
        (fun s1 =>
          match s1.2 with
          | c :: r3 =>
            if c = '/' then
              listFlat
                (fun s2 =>
                  (splits1Desc Char.isDigit s2.2).map
                    (fun d2 => (d1.1 ++ s1.1 ++ '/' :: (s2.1 ++ d2.1), d2.2)))
                (splitsDesc isPySpace r3)
            else []
          | [] => [])
        (splitsDesc isPySpace d1.2))
    (splits1Desc Char.isDigit cs)

/-- Alternative 3: `\d+\s+\d+\s*\/\s*\d+`. -/
def numAlt3 (cs : List Char) : List (List Char × List Char) :=
  listFlat
    (fun d1 =>
      listFlat
        (fun s0 =>
          listFlat
            (fun d2 =>
              listFlat
                (fun s1 =>
                  match s1.2 with
                  | c :: r =>
                    if c = '/' then
                      listFlat
                        (fun s2 =>
                          (splits1Desc Char.isDigit s2.2).map
                            (fun d3 =>
                              (d1.1 ++ s0.1 ++ d2.1 ++ s1.1 ++ '/' :: (s2.1 ++ d3.1),
                               d3.2)))
                        (splitsDesc isPySpace r)
                    else []
                  | [] => [])
                (splitsDesc isPySpace d2.2))
            (splits1Desc Char.isDigit s0.2))
        (splits1Desc isPySpace d1.2))
    (splits1Desc Char.isDigit cs)

/-- Alternative 4: `\d+`. -/
def numAlt4 (cs : List Char) : List (List Char × List Char) :=
  splits1Desc Char.isDigit cs

/-- `NUMBER_PATTERN`, alternatives in source order. -/
def numSplits (cs : List Char) : List (List Char × List Char) :=
  numAlt1 cs ++ numAlt2 cs ++ numAlt3 cs ++ numAlt4 cs

/-! ## The six structural patterns -/

/-- `(?P<name>.*)$` tail: `.` cannot cross a newline, so the greedy tail
reaches `$` (end of the stripped line) iff the rest holds no newline. -/
def dotStarEnd (cs : List Char) : Option (List Char) :=
  if cs.contains '\n' then none else some cs

/-- Captures of patterns 1 and 2 (quantity, unit, name). -/
structure CapQUN where
  q : String
  u : String
  n : String

/-- Captures of pattern 3 (quantity, name). -/
structure CapQN where
  q : String
  n : String

/-- Captures of pattern 4 (name, quantity, optional unit, trailing text). -/
structure CapNQUN where
  n : String
  q : String
  u : Option String
  rest : String

/-- Captures of pattern 5 (name, quantity). -/
structure CapNQ where
  n : String
  q : String

/-- Captures of pattern 6 (unit, name). -/
structure CapUN where
  u : String
  n : String

/-- Pattern 1 "Number Unit Name":
`^\s*(?P<quantity>NUM)\s*(?P<unit>UNIT)\s+(?P<name>.*)$`, `re.IGNORECASE`. -/
def pattern1 (cs : List Char) : Option CapQUN :=
  firstSome
    (fun s0 =>
      firstSome
        (fun qp =>
          firstSome
            (fun s1 =>
              firstSome
                (fun up =>
                  firstSome
                    (fun s2 =>
                      (dotStarEnd s2.2).map
                        (fun nm => ⟨String.mk qp.1, String.mk up.1, String.mk nm⟩))
                    (splits1Desc isPySpace up.2))
                (unitSplits s1.2))
            (splitsDesc isPySpace qp.2))
        (numSplits s0.2))
    (splitsDesc isPySpace cs)

/-- Pattern 2 "Unit Quantity Name":
`^\s*(?P<unit>UNIT)\s*(?P<quantity>NUM)\s+(?P<name>.*)$`, `re.IGNORECASE`. -/
def pattern2 (cs : List Char) : Option CapQUN :=
  firstSome
    (fun s0 =>
      firstSome
        (fun up =>
          firstSome
            (fun s1 =>
              firstSome
                (fun qp =>
                  firstSome
                    (fun s2 =>
                      (dotStarEnd s2.2).map
                        (fun nm => ⟨String.mk qp.1, String.mk up.1, String.mk nm⟩))
                    (splits1Desc isPySpace qp.2))
                (numSplits s1.2))
            (splitsDesc isPySpace up.2))
        (unitSplits s0.2))
    (splitsDesc isPySpace cs)

/-- Pattern 3 "Number Name":
`^\s*(?P<quantity>NUM)\s+(?P<name>[^\d].*)$`, no flags.  `[^\d]` admits any
non-digit (newline included); the `.*$` tail forbids further newlines. -/
def pattern3 (cs : List Char) : Option CapQN :=
  firstSome
    (fun s0 =>
      firstSome
        (fun qp =>
          firstSome
            (fun s1 =>
              match s1.2 with
              | [] => none
              | c :: rest =>
                if !c.isDigit && !rest.contains '\n' then
                  some ⟨String.mk qp.1, String.mk (c :: rest)⟩
                else none)
            (splits1Desc isPySpace qp.2))
        (numSplits s0.2))
    (splitsDesc isPySpace cs)

/-- Greedy `,?`: consume-the-comma first. -/
def commaOptSplits (cs : List Char) : List (List Char) :=
  match cs with
  | ',' :: rest => [rest, cs]
  | _ => [cs]

/-- Greedy optional unit group `(?P<unit>UNIT)?`: matched alternatives first,
then the unmatched case. -/
def unitOptSplits (cs : List Char) : List (Option (List Char) × List Char) :=
  (unitSplits cs).map (fun p => (some p.1, p.2)) ++ [(none, cs)]

/-- Pattern 4 "Name[,] Number [Unit] [Notes]":
`^(?P<name>.*?),?\s+(?P<quantity>NUM)\s*(?P<unit>UNIT)?\s*(?P<notes>.*)$`,
`re.IGNORECASE`.  The name group is lazy. -/
def pattern4 (cs : List Char) : Option CapNQUN :=
  firstSome
    (fun np =>
      firstSome
        (fun r2 =>
          firstSome
            (fun s1 =>
              firstSome
                (fun qp =>
                  firstSome
                    (fun s2 =>
                      firstSome
                        (fun up =>
                          firstSome
                            (fun s3 =>
                              (dotStarEnd s3.2).map
                                (fun rest =>
                                  ⟨String.mk np.1, String.mk qp.1,
                                   up.1.map String.mk, String.mk rest⟩))
                            (splitsDesc isPySpace up.2))
                        (unitOptSplits s2.2))
                    (splitsDesc isPySpace qp.2))
                (numSplits s1.2))
            (splits1Desc isPySpace r2))
        (commaOptSplits np.2))
    (splitsAsc (fun c => c != '\n') cs)

/-- Pattern 5 "Name Number":
`^(?P<name>.*?)\s+(?P<quantity>NUM)\s*$`, no flags. -/
def pattern5 (cs : List Char) : Option CapNQ :=
  firstSome
    (fun np =>
      firstSome
        (fun s1 =>
          firstSome
            (fun qp =>
              firstSome
                (fun s2 =>
                  if s2.2 = [] then some ⟨String.mk np.1, String.mk qp.1⟩
                  else none)
                (splitsDesc isPySpace qp.2))
            (numSplits s1.2))
        (splits1Desc isPySpace np.2))
    (splitsAsc (fun c => c != '\n') cs)

/-- Greedy optional `(?:of\s+)?`: with-`of` alternatives first, then skip. -/
def ofOptSplits (cs : List Char) : List (List Char) :=
  (match matchLitCI ['o', 'f'] cs with
   | some p => (splits1Desc isPySpace p.2).map (fun s => s.2)
   | none => []) ++ [cs]

/-- Pattern 6 "Unit Name":
`^\s*(?P<unit>UNIT)\s+(?:of\s+)?(?P<name>.*)$`, `re.IGNORECASE`. -/
def pattern6 (cs : List Char) : Option CapUN :=
  firstSome
    (fun s0 =>
      firstSome
        (fun up =>
          firstSome
            (fun s1 =>
              firstSome
                (fun r =>
                  (dotStarEnd r).map (fun nm => ⟨String.mk up.1, String.mk nm⟩))
                (ofOptSplits s1.2))
            (splits1Desc isPySpace up.2))
        (unitSplits s0.2))
    (splitsDesc isPySpace cs)

/-! ## The output record and the processors -/

/-- The dictionary returned by `parse_ingredient_string` (keys in source
order). -/
structure ParsedIngredient where
  quantity : Option ℚ
  unit : Option String
  name : Option String
  notes : Option String
  original : String
deriving DecidableEq, Repr

/-- `unit.strip().rstrip('.').lower()` as one step. -/
def unitNorm (u : String) : String :=
  String.mk ((rstripDots (pyStripBoth u.data)).map Char.toLower)

/-- The normalisation every processor applies to a captured unit, including
the (dead, see claim C5) `if unit == 'q.b.': unit = 'qb'` check. -/
def unitCanon (u : String) : String :=
  let x := unitNorm u
  if x = "q.b." then "qb" else x

/-- Processor of pattern 1 (`process_number_unit_name`). -/
def process_number_unit_name (st : ParsedIngredient) (m : CapQUN) : ParsedIngredient :=
  { st with
    quantity := parse_quantity m.q
    unit := some (unitCanon m.u)
    name := some (pyStrip m.n) }

/-- Processor of pattern 2 (`process_unit_quantity_name`). -/
def process_unit_quantity_name (st : ParsedIngredient) (m : CapQUN) : ParsedIngredient :=
  { st with
    unit := some (unitCanon m.u)
    quantity := parse_quantity m.q
    name := some (pyStrip m.n) }

/-- Processor of pattern 3 (`process_number_name`). -/
def process_number_name (st : ParsedIngredient) (m : CapQN) : ParsedIngredient :=
  { st with
    quantity := parse_quantity m.q
    unit := none
    name := some (pyStrip m.n) }

/-- Processor of pattern 4 (`process_name_number_unit_notes`): rejects (and
matching continues) when the captured name is, lowercased, a lexicon unit;
otherwise fills the record, extending already-present notes with `", "`. -/
def process_name_number_unit_notes (st : ParsedIngredient) (m : CapNQUN) :
    Option ParsedIngredient :=
  let potential_name := pyStrip m.n
  if pyLower potential_name ∈ COMMON_UNITS then none
  else
    let base :=
      { st with
        name := some potential_name
        quantity := parse_quantity m.q
        unit :=
          match m.u with
          | some u => some (unitCanon u)
          | none => none }
    let remaining := pyStrip m.rest
    some
      (if remaining ≠ "" then
        match st.notes with
        | none => { base with notes := some remaining }
        | some t => { base with notes := some (t ++ ", " ++ remaining) }
      else base)

/-- Processor of pattern 5 (`process_name_number`), with the same unit-name
guard; the trailing conditional re-assigns notes from the parenthetical
match when notes is still unset (in the source this is never the case when a
parenthetical was found, but it is embedded as written). -/
def process_name_number (st : ParsedIngredient) (nm : Option (List Char))
    (m : CapNQ) : Option ParsedIngredient :=
  let potential_name := pyStrip m.n
  if pyLower potential_name ∈ COMMON_UNITS then none
  else
    some
      { st with
        name := some potential_name
        quantity := parse_quantity m.q
        unit := none
        notes :=
          match st.notes, nm with
          | none, some g => some (pyStrip (String.mk g))
          | _, _ => st.notes }

/-- Processor of pattern 6 (`process_unit_name`). -/
def process_unit_name (st : ParsedIngredient) (m : CapUN) : ParsedIngredient :=
  { st with
    quantity := none
    unit := some (unitCanon m.u)
    name := some (pyStrip m.n) }

/-- The fallback: the whole (post-preprocessing) line becomes the name; the
trailing conditional is the same dead re-assignment as in pattern 5's
processor. -/
def fallbackP (st : ParsedIngredient) (nm : Option (List Char))
    (work : List Char) : ParsedIngredient :=
  { st with
    name := some (String.mk work)
    notes :=
      match st.notes, nm with
      | none, some g => some (pyStrip (String.mk g))
      | _, _ => st.notes }

/-! ## Pre-processing: the parenthetical notes -/

/-- Scan for the closing `)` of `\((.*?)\)`: the chars before the first `)`;
fails on a newline (`.` cannot cross it) or end of input. -/
def findCloseParen : List Char → Option (List Char)
  | [] => none
  | ')' :: _ => some []
  | '\n' :: _ => none
  | c :: rest => (findCloseParen rest).map (fun g => c :: g)

/-- `re.search(r'\((.*?)\)', line)` group 1: leftmost `(` having a `)` later
on the same line wins; the lazy group stops at the first `)`. -/
def searchParen : List Char → Option (List Char)
  | [] => none
  | '(' :: rest =>
    (match findCloseParen rest with
     | some g => some g
     | none => searchParen rest)
  | _ :: rest => searchParen rest

/-- `re.sub(r'\(.*?\)', '', line)` worker, structurally recursive on a fuel
bound.  Each step consumes at least one char of the input, so with fuel at
least the input length the fuel never runs out (the `0` branch returns the
rest unchanged and is unreachable from `subParens`). -/
def subParensF : Nat → List Char → List Char
  | 0, cs => cs
  | _ + 1, [] => []
  | fuel + 1, '(' :: rest =>
    (match findCloseParen rest with
     | some g => subParensF fuel (rest.drop (g.length + 1))
     | none => '(' :: subParensF fuel rest)
  | fuel + 1, c :: rest => c :: subParensF fuel rest

/-- `re.sub(r'\(.*?\)', '', line)`: remove every (leftmost, lazy,
non-overlapping) parenthesised group. -/
def subParens (cs : List Char) : List Char := subParensF cs.length cs

/-! ## The pattern cascade and the top-level parser -/

/-- Patterns 6 and the fallback (tail of the cascade). -/
def parseCore6 (st : ParsedIngredient) (nm : Option (List Char))
    (work : List Char) : ParsedIngredient :=
  match pattern6 work with
  | some m => process_unit_name st m
  | none => fallbackP st nm work

/-- Patterns 5, 6 and the fallback: pattern 5's processor may reject, in
which case matching continues. -/
def parseCore5 (st : ParsedIngredient) (nm : Option (List Char))
    (work : List Char) : ParsedIngredient :=
  match pattern5 work with
  | some m =>
    (match process_name_number st nm m with
     | some r => r
     | none => parseCore6 st nm work)
  | none => parseCore6 st nm work

/-- The full pattern cascade, in source order; pattern 4's processor may
reject, in which case matching continues with pattern 5. -/
def parseCore (st : ParsedIngredient) (nm : Option (List Char))
    (work : List Char) : ParsedIngredient :=
  match pattern1 work with
  | some m => process_number_unit_name st m
  | none =>
    match pattern2 work with
    | some m => process_unit_quantity_name st m
    | none =>
      match pattern3 work with
      | some m => process_number_name st m
      | none =>
        match pattern4 work with
        | some m =>
          (match process_name_number_unit_notes st m with
           | some r => r
           | none => parseCore5 st nm work)
        | none => parseCore5 st nm work

/-- Embedding of `parse_ingredient_string` (src/utils.py lines 33-195):
strip the line into `original`; return the empty record for an empty line;
extract a parenthetical into the notes candidate and remove it from the
working line; then run the pattern cascade. -/
def parse_ingredient_string (line : String) : ParsedIngredient :=
  let original_line := pyStrip line
  if original_line = "" then
    { quantity := none, unit := none, name := none, notes := none,
      original := original_line }
  else
    let nm := searchParen line.data
    let st : ParsedIngredient :=
      { quantity := none, unit := none, name := none,
        notes := nm.map (fun g => pyStrip (String.mk g)),
        original := original_line }
    let work : List Char :=
      match nm with
      | some _ => pyStripBoth (subParens line.data)
      | none => pyStripBoth original_line.data
    parseCore st nm work

/-! ## The parser with exception semantics

The same cascade with Python's exceptions tracked in `Except`: the only
raising operations are the conversions inside `_parse_quantity`'s `try`,
which the function catches in place (`pyCatch ∘ parse_quantityE`), so every
processor — and hence the whole parser — is infallible (claim C3). -/

/-- Pattern-1 processor, exception-tracking version. -/
def process_number_unit_nameE (st : ParsedIngredient) (m : CapQUN) :
    Except String ParsedIngredient :=
  Except.ok
    { st with
      quantity := pyCatch (parse_quantityE m.q)
      unit := some (unitCanon m.u)
      name := some (pyStrip m.n) }

/-- Pattern-2 processor, exception-tracking version. -/
def process_unit_quantity_nameE (st : ParsedIngredient) (m : CapQUN) :
    Except String ParsedIngredient :=
  Except.ok
    { st with
      unit := some (unitCanon m.u)
      quantity := pyCatch (parse_quantityE m.q)
      name := some (pyStrip m.n) }

/-- Pattern-3 processor, exception-tracking version. -/
def process_number_nameE (st : ParsedIngredient) (m : CapQN) :
    Except String ParsedIngredient :=
  Except.ok
    { st with
      quantity := pyCatch (parse_quantityE m.q)
      unit := none
      name := some (pyStrip m.n) }

/-- Pattern-4 processor, exception-tracking version. -/
def process_name_number_unit_notesE (st : ParsedIngredient) (m : CapNQUN) :
    Except String (Option ParsedIngredient) :=
  let potential_name := pyStrip m.n
  if pyLower potential_name ∈ COMMON_UNITS then Except.ok none
  else
    let base :=
      { st with
        name := some potential_name
        quantity := pyCatch (parse_quantityE m.q)
        unit :=
          match m.u with
          | some u => some (unitCanon u)
          | none => none }
    let remaining := pyStrip m.rest
    Except.ok
      (some
        (if remaining ≠ "" then
          match st.notes with
          | none => { base with notes := some remaining }
          | some t => { base with notes := some (t ++ ", " ++ remaining) }
        else base))

/-- Pattern-5 processor, exception-tracking version. -/
def process_name_numberE (st : ParsedIngredient) (nm : Option (List Char))
    (m : CapNQ) : Except String (Option ParsedIngredient) :=
  let potential_name := pyStrip m.n
  if pyLower potential_name ∈ COMMON_UNITS then Except.ok none
  else
    Except.ok
      (some
        { st with
          name := some potential_name
          quantity := pyCatch (parse_quantityE m.q)
          unit := none
          notes :=
            match st.notes, nm with
            | none, some g => some (pyStrip (String.mk g))
            | _, _ => st.notes })

/-- Pattern-6 processor, exception-tracking version. -/
def process_unit_nameE (st : ParsedIngredient) (m : CapUN) :
    Except String ParsedIngredient :=
  Except.ok
    { st with
      quantity := none
      unit := some (unitCanon m.u)
      name := some (pyStrip m.n) }

/-- Cascade tail, exception-tracking version. -/
def parseCore6E (st : ParsedIngredient) (nm : Option (List Char))
    (work : List Char) : Except String ParsedIngredient :=
  match pattern6 work with
  | some m => process_unit_nameE st m
  | none => Except.ok (fallbackP st nm work)

/-- Patterns 5-6 and fallback, exception-tracking version. -/
def parseCore5E (st : ParsedIngredient) (nm : Option (List Char))
    (work : List Char) : Except String ParsedIngredient :=
  match pattern5 work with
  | some m =>
    (match process_name_numberE st nm m with
     | Except.ok (some r) => Except.ok r
     | Except.ok none => parseCore6E st nm work
     | Except.error e => Except.error e)
  | none => parseCore6E st nm work

/-- Full cascade, exception-tracking version. -/
def parseCoreE (st : ParsedIngredient) (nm : Option (List Char))
    (work : List Char) : Except String ParsedIngredient :=
  match pattern1 work with
  | some m => process_number_unit_nameE st m
  | none =>
    match pattern2 work with
    | some m => process_unit_quantity_nameE st m
    | none =>
      match pattern3 work with
      | some m => process_number_nameE st m
      | none =>
        match pattern4 work with
        | some m =>
          (match process_name_number_unit_notesE st m with
           | Except.ok (some r) => Except.ok r
           | Except.ok none => parseCore5E st nm work
           | Except.error e => Except.error e)
        | none => parseCore5E st nm work

/-- `parse_ingredient_string` with Python's exceptions tracked in `Except`. -/
def parse_ingredient_stringE (line : String) : Except String ParsedIngredient :=
  let original_line := pyStrip line
  if original_line = "" then
    Except.ok
      { quantity := none, unit := none, name := none, notes := none,
        original := original_line }
  else
    let nm := searchParen line.data
    let st : ParsedIngredient :=
      { quantity := none, unit := none, name := none,
        notes := nm.map (fun g => pyStrip (String.mk g)),
        original := original_line }
    let work : List Char :=
      match nm with
      | some _ => pyStripBoth (subParens line.data)
      | none => pyStripBoth original_line.data
    parseCoreE st nm work

/-! ## Helper lemmas -/

theorem data_mk (l : List Char) : (String.mk l).data = l := rfl

theorem data_append (s t : String) : (s ++ t).data = s.data ++ t.data := by
  cases s
  cases t
  rfl

theorem firstSome_ex {α β : Type} {f : α → Option β} {l : List α} {b : β}
    (h : firstSome f l = some b) : ∃ a, a ∈ l ∧ f a = some b := by
  induction l with
  | nil => simp [firstSome] at h
  | cons x xs ih =>
    rw [firstSome] at h
    cases hx : f x with
    | some b' =>
      rw [hx] at h
      exact ⟨x, List.mem_cons_self .., by rw [hx]; exact h⟩
    | none =>
      rw [hx] at h
      obtain ⟨a, ha, hfa⟩ := ih h
      exact ⟨a, List.mem_cons_of_mem _ ha, hfa⟩

theorem listFlat_mem {α β : Type} {f : α → List β} {l : List α} {b : β}
    (h : b ∈ listFlat f l) : ∃ a, a ∈ l ∧ b ∈ f a := by
  induction l with
  | nil => simp [listFlat] at h
  | cons x xs ih =>
    rw [listFlat] at h
    rcases List.mem_append.mp h with h1 | h2
    · exact ⟨x, List.mem_cons_self .., h1⟩
    · obtain ⟨a, ha, hfa⟩ := ih h2
      exact ⟨a, List.mem_cons_of_mem _ ha, hfa⟩

theorem mem_take_of_le_takeWhile {p : Char → Bool} :
    ∀ (cs : List Char) (k : Nat), k ≤ (cs.takeWhile p).length →
      ∀ c ∈ cs.take k, p c = true := by
  intro cs
  induction cs with
  | nil => intro k _ c hc; simp at hc
  | cons x xs ih =>
    intro k hk c hc
    cases hp : p x with
    | false =>
      simp [List.takeWhile, hp] at hk
      subst hk
      simp at hc
    | true =>
      simp [List.takeWhile, hp] at hk
      cases k with
      | zero => simp at hc
      | succ j =>
        rw [List.take_succ_cons] at hc
        rcases List.mem_cons.mp hc with rfl | hc2
        · exact hp
        · exact ih j (by omega) c hc2

theorem splitsDesc_sat {p : Char → Bool} {cs : List Char} {pr : List Char × List Char}
    (h : pr ∈ splitsDesc p cs) : ∀ c ∈ pr.1, p c = true := by
  unfold splitsDesc at h
  obtain ⟨k, hk, rfl⟩ := List.mem_map.mp h
  rw [List.mem_reverse, List.mem_range] at hk
  exact mem_take_of_le_takeWhile cs k (by omega)

theorem splits1Desc_sat {p : Char → Bool} {cs : List Char} {pr : List Char × List Char}
    (h : pr ∈ splits1Desc p cs) : ∀ c ∈ pr.1, p c = true := by
  unfold splits1Desc at h
  obtain ⟨k, hk, rfl⟩ := List.mem_map.mp h
  rw [List.mem_reverse, List.mem_range] at hk
  exact mem_take_of_le_takeWhile cs (k + 1) (by omega)

/-- Characters a `NUMBER_PATTERN` capture can contain. -/
def isNumChar (c : Char) : Bool :=
  c.isDigit || c == '.' || c == ',' || c == '/' || isPySpace c

theorem numSplits_sat {cs : List Char} {pr : List Char × List Char}
    (h : pr ∈ numSplits cs) : ∀ c ∈ pr.1, isNumChar c = true := by
  have digit_num : ∀ c : Char, c.isDigit = true → isNumChar c = true := by
    intro c hc
    simp [isNumChar, hc]
  have space_num : ∀ c : Char, isPySpace c = true → isNumChar c = true := by
    intro c hc
    simp [isNumChar, hc]
  unfold numSplits at h
  rcases List.mem_append.mp h with h | h4
  rcases List.mem_append.mp h with h | h3
  rcases List.mem_append.mp h with h1 | h2
  · -- alternative 1
    unfold numAlt1 at h1
    obtain ⟨d1, hd1, hin⟩ := listFlat_mem h1
    rcases hd : d1.2 with _ | ⟨c0, r2⟩ <;> rw [hd] at hin
    · simp at hin
    · dsimp only at hin
      by_cases hcond : (c0 == '.' || c0 == ',') = true
      · rw [if_pos hcond] at hin
        obtain ⟨d2, hd2, heq⟩ := List.mem_map.mp hin
        subst heq
        intro c hc
        simp only [List.mem_append, List.mem_cons] at hc
        rcases hc with hc | hceq | hc
        · exact digit_num c (splitsDesc_sat hd1 c hc)
        · subst hceq
          have hcond' : c = '.' ∨ c = ',' := by simpa using hcond
          rcases hcond' with rfl | rfl
          · simp [isNumChar]
          · simp [isNumChar]
        · exact digit_num c (splits1Desc_sat hd2 c hc)
      · rw [if_neg hcond] at hin
        simp at hin
  · -- alternative 2
    unfold numAlt2 at h2
    obtain ⟨d1, hd1, hin⟩ := listFlat_mem h2
    obtain ⟨s1, hs1, hin⟩ := listFlat_mem hin
    rcases hd : s1.2 with _ | ⟨c0, r3⟩ <;> rw [hd] at hin
    · simp at hin
    · dsimp only at hin
      by_cases hc0 : c0 = '/'
      · subst hc0
        rw [if_pos rfl] at hin
        obtain ⟨s2, hs2, hin⟩ := listFlat_mem hin
        obtain ⟨d2, hd2, heq⟩ := List.mem_map.mp hin
        subst heq
        intro c hc
        simp only [List.mem_append, List.mem_cons] at hc
        rcases hc with (hc | hc) | rfl | hc
        · exact digit_num c (splits1Desc_sat hd1 c hc)
        · exact space_num c (splitsDesc_sat hs1 c hc)
        · simp [isNumChar]
        · rcases hc with hc | hc
          · exact space_num c (splitsDesc_sat hs2 c hc)
          · exact digit_num c (splits1Desc_sat hd2 c hc)
      · rw [if_neg hc0] at hin
        simp at hin
  · -- alternative 3
    unfold numAlt3 at h3
    obtain ⟨d1, hd1, hin⟩ := listFlat_mem h3
    obtain ⟨s0, hs0, hin⟩ := listFlat_mem hin
    obtain ⟨d2, hd2, hin⟩ := listFlat_mem hin
    obtain ⟨s1, hs1, hin⟩ := listFlat_mem hin
    rcases hd : s1.2 with _ | ⟨c0, r3⟩ <;> rw [hd] at hin
    · simp at hin
    · dsimp only at hin
      by_cases hc0 : c0 = '/'
      · subst hc0
        rw [if_pos rfl] at hin
        obtain ⟨s2, hs2, hin⟩ := listFlat_mem hin
        obtain ⟨d3, hd3, heq⟩ := List.mem_map.mp hin
        subst heq
        intro c hc
        simp only [List.mem_append, List.mem_cons] at hc
        rcases hc with (((hc | hc) | hc) | hc) | rfl | hc
        · exact digit_num c (splits1Desc_sat hd1 c hc)
        · exact space_num c (splits1Desc_sat hs0 c hc)
        · exact digit_num c (splits1Desc_sat hd2 c hc)
        · exact space_num c (splitsDesc_sat hs1 c hc)
        · simp [isNumChar]
        · rcases hc with hc | hc
          · exact space_num c (splitsDesc_sat hs2 c hc)
          · exact digit_num c (splits1Desc_sat hd3 c hc)
      · rw [if_neg hc0] at hin
        simp at hin
  · -- alternative 4
    unfold numAlt4 at h4
    intro c hc
    exact digit_num c (splits1Desc_sat h4 c hc)

theorem pattern1_qchars {cs : List Char} {m : CapQUN} (h : pattern1 cs = some m) :
    ∀ c ∈ m.q.data, isNumChar c = true := by
  unfold pattern1 at h
  obtain ⟨s0, _, h⟩ := firstSome_ex h
  obtain ⟨qp, hqp, h⟩ := firstSome_ex h
  obtain ⟨s1, _, h⟩ := firstSome_ex h
  obtain ⟨up, _, h⟩ := firstSome_ex h
  obtain ⟨s2, _, h⟩ := firstSome_ex h
  unfold dotStarEnd at h
  split at h
  · simp at h
  · injection h with h
    subst h
    exact fun c hc => numSplits_sat hqp c hc

theorem pattern2_qchars {cs : List Char} {m : CapQUN} (h : pattern2 cs = some m) :
    ∀ c ∈ m.q.data, isNumChar c = true := by
  unfold pattern2 at h
  obtain ⟨s0, _, h⟩ := firstSome_ex h
  obtain ⟨up, _, h⟩ := firstSome_ex h
  obtain ⟨s1, _, h⟩ := firstSome_ex h
  obtain ⟨qp, hqp, h⟩ := firstSome_ex h
  obtain ⟨s2, _, h⟩ := firstSome_ex h
  unfold dotStarEnd at h
  split at h
  · simp at h
  · injection h with h
    subst h
    exact fun c hc => numSplits_sat hqp c hc

theorem pattern3_qchars {cs : List Char} {m : CapQN} (h : pattern3 cs = some m) :
    ∀ c ∈ m.q.data, isNumChar c = true := by
  unfold pattern3 at h
  obtain ⟨s0, _, h⟩ := firstSome_ex h
  obtain ⟨qp, hqp, h⟩ := firstSome_ex h
  obtain ⟨s1, _, h⟩ := firstSome_ex h
  rcases hd : s1.2 with _ | ⟨c0, rest⟩ <;> rw [hd] at h
  · simp at h
  · dsimp only at h
    split at h
    · rw [Option.some_inj] at h
      subst h
      exact fun c hc => numSplits_sat hqp c hc
    · simp at h

theorem pattern4_qchars {cs : List Char} {m : CapNQUN} (h : pattern4 cs = some m) :
    ∀ c ∈ m.q.data, isNumChar c = true := by
  unfold pattern4 at h
  obtain ⟨np, _, h⟩ := firstSome_ex h
  obtain ⟨r2, _, h⟩ := firstSome_ex h
  obtain ⟨s1, _, h⟩ := firstSome_ex h
  obtain ⟨qp, hqp, h⟩ := firstSome_ex h
  obtain ⟨s2, _, h⟩ := firstSome_ex h
  obtain ⟨up, _, h⟩ := firstSome_ex h
  obtain ⟨s3, _, h⟩ := firstSome_ex h
  unfold dotStarEnd at h
  split at h
  · simp at h
  · injection h with h
    subst h
    exact fun c hc => numSplits_sat hqp c hc

theorem pattern5_qchars {cs : List Char} {m : CapNQ} (h : pattern5 cs = some m) :
    ∀ c ∈ m.q.data, isNumChar c = true := by
  unfold pattern5 at h
  obtain ⟨np, _, h⟩ := firstSome_ex h
  obtain ⟨s1, _, h⟩ := firstSome_ex h
  obtain ⟨qp, hqp, h⟩ := firstSome_ex h
  obtain ⟨s2, _, h⟩ := firstSome_ex h
  split at h
  · rw [Option.some_inj] at h
    subst h
    exact fun c hc => numSplits_sat hqp c hc
  · simp at h

theorem mem_of_mem_dropWhile {p : Char → Bool} {l : List Char} {c : Char}
    (h : c ∈ l.dropWhile p) : c ∈ l := by
  induction l with
  | nil => simp at h
  | cons x xs ih =>
    rw [List.dropWhile_cons] at h
    split at h
    · exact List.mem_cons_of_mem _ (ih h)
    · exact h

theorem pyStripBoth_subset {cs : List Char} {c : Char} (h : c ∈ pyStripBoth cs) :
    c ∈ cs := by
  unfold pyStripBoth at h
  rw [List.mem_reverse] at h
  have h1 := mem_of_mem_dropWhile h
  rw [List.mem_reverse] at h1
  exact mem_of_mem_dropWhile h1

theorem isNumChar_ne_minus {c : Char} (h : isNumChar c = true) : c ≠ '-' := by
  rintro rfl
  exact absurd h (by decide)

theorem splitFirst_fst_subset (sep : Char) :
    ∀ (cs : List Char) (c : Char), c ∈ (splitFirst sep cs).1 → c ∈ cs := by
  intro cs
  induction cs with
  | nil => intro c hc; simp [splitFirst] at hc
  | cons x xs ih =>
    intro c hc
    rw [splitFirst] at hc
    split at hc
    · simp at hc
    · rcases List.mem_cons.mp hc with rfl | hc
      · exact List.mem_cons_self ..
      · exact List.mem_cons_of_mem _ (ih c hc)

theorem splitFirst_snd_subset (sep : Char) :
    ∀ (cs r : List Char), (splitFirst sep cs).2 = some r → ∀ c ∈ r, c ∈ cs := by
  intro cs
  induction cs with
  | nil => intro r hr; simp [splitFirst] at hr
  | cons x xs ih =>
    intro r hr c hc
    rw [splitFirst] at hr
    split at hr
    · rw [Option.some_inj] at hr
      subst hr
      exact List.mem_cons_of_mem _ hc
    · exact List.mem_cons_of_mem _ (ih r hr c hc)

theorem splitAllAux_subset (sep : Char) :
    ∀ (cs acc part : List Char), part ∈ splitAllAux sep cs acc →
      ∀ c ∈ part, c ∈ cs ∨ c ∈ acc := by
  intro cs
  induction cs with
  | nil =>
    intro acc part hp c hc
    simp [splitAllAux] at hp
    subst hp
    right
    exact List.mem_reverse.mp hc
  | cons x xs ih =>
    intro acc part hp c hc
    rw [splitAllAux] at hp
    split at hp
    · rcases List.mem_cons.mp hp with rfl | hp
      · right
        exact List.mem_reverse.mp hc
      · rcases ih [] part hp c hc with h | h
        · exact Or.inl (List.mem_cons_of_mem _ h)
        · simp at h
    · rcases ih (x :: acc) part hp c hc with h | h
      · exact Or.inl (List.mem_cons_of_mem _ h)
      · rcases List.mem_cons.mp h with rfl | h
        · exact Or.inl (List.mem_cons_self ..)
        · exact Or.inr h

theorem splitAll_subset {sep : Char} {cs part : List Char}
    (hp : part ∈ splitAll sep cs) : ∀ c ∈ part, c ∈ cs := by
  intro c hc
  rcases splitAllAux_subset sep cs [] part hp c hc with h | h
  · exact h
  · simp at h

theorem decCore?_nonneg {cs : List Char} {v : ℚ} (h : decCore? cs = some v) :
    0 ≤ v := by
  unfold decCore? at h
  rcases hsf : splitFirst '.' cs with ⟨ip, fpo⟩
  rw [hsf] at h
  rcases fpo with _ | fp
  · dsimp only at h
    rcases hd : digitsVal? ip with _ | n <;> rw [hd] at h
    · simp at h
    · simp at h
      subst h
      positivity
  · dsimp only at h
    split at h
    · simp at h
    · split at h
      · rcases hd : digitsVal? fp with _ | n <;> rw [hd] at h
        · simp at h
        · simp at h
          subst h
          positivity
      · split at h
        · rcases hd : digitsVal? ip with _ | n <;> rw [hd] at h
          · simp at h
          · simp at h
            subst h
            positivity
        · rcases hd1 : digitsVal? ip with _ | a <;> rw [hd1] at h
          · simp at h
          · rcases hd2 : digitsVal? fp with _ | b <;> rw [hd2] at h
            · simp at h
            · rw [Option.some_inj] at h
              subst h
              positivity

theorem pyFloat?_nonneg {cs : List Char} (hm : '-' ∉ cs) {v : ℚ}
    (h : pyFloat? cs = some v) : 0 ≤ v := by
  unfold pyFloat? at h
  rcases hs2 : pyStripBoth cs with _ | ⟨c0, rest⟩ <;> rw [hs2] at h
  · simp at h
  · dsimp only at h
    by_cases hc0 : c0 = '-'
    · exfalso
      apply hm
      apply pyStripBoth_subset
      rw [hs2, hc0]
      exact List.mem_cons_self ..
    · rw [if_neg hc0] at h
      by_cases hc1 : c0 = '+'
      · rw [if_pos hc1] at h
        exact decCore?_nonneg h
      · rw [if_neg hc1] at h
        exact decCore?_nonneg h

theorem pyInt?_nonneg {cs : List Char} (hm : '-' ∉ cs) {z : Int}
    (h : pyInt? cs = some z) : 0 ≤ z := by
  unfold pyInt? at h
  rcases hs2 : pyStripBoth cs with _ | ⟨c0, rest⟩ <;> rw [hs2] at h
  · simp at h
  · dsimp only at h
    by_cases hc0 : c0 = '-'
    · exfalso
      apply hm
      apply pyStripBoth_subset
      rw [hs2, hc0]
      exact List.mem_cons_self ..
    · rw [if_neg hc0] at h
      have hval : ∀ X : List Char, (digitsVal? X).map (fun n => (n : Int)) = some z → 0 ≤ z := by
        intro X hX
        rcases hd : digitsVal? X with _ | n <;> rw [hd] at hX
        · simp at hX
        · simp at hX
          subst hX
          exact Int.natCast_nonneg n
      by_cases hc1 : c0 = '+'
      · rw [if_pos hc1] at h
        exact hval rest h
      · rw [if_neg hc1] at h
        exact hval (c0 :: rest) h

theorem parse_quantityCore_nonneg {s : List Char} (hm : '-' ∉ s) {v : ℚ}
    (h : parse_quantityCore s = some v) : 0 ≤ v := by
  unfold parse_quantityCore at h
  split at h
  · exact pyFloat?_nonneg hm h
  · split at h
    · rcases hsf : splitFirst ' ' s with ⟨p0, po⟩
      rw [hsf] at h
      rcases po with _ | p1
      · simp at h
      · dsimp only at h
        rcases hw : pyInt? p0 with _ | whole <;> rw [hw] at h
        · simp at h
        · dsimp only at h
          have hp1 : ∀ c ∈ p1, c ∈ s := by
            intro c hc
            exact splitFirst_snd_subset ' ' s p1 (by rw [hsf]) c hc
          rcases hsp : splitAll '/' p1 with _ | ⟨a, rest1⟩
          · rw [hsp] at h
            simp at h
          · rcases rest1 with _ | ⟨b, rest2⟩
            · rw [hsp] at h
              simp at h
            · rcases rest2 with _ | ⟨x, rest3⟩
              · rw [hsp] at h
                dsimp only at h
                rcases ha : pyInt? a with _ | num <;> rw [ha] at h
                · simp at h
                · rcases hb : pyInt? b with _ | den <;> rw [hb] at h
                  · simp at h
                  · dsimp only at h
                    split at h
                    · simp at h
                    · rw [Option.some_inj] at h
                      subst h
                      have hwn : 0 ≤ whole := by
                        apply pyInt?_nonneg ?_ hw
                        intro hmem
                        exact hm (splitFirst_fst_subset ' ' s '-' (by rw [hsf]; exact hmem))
                      have hsuba : ∀ c ∈ a, c ∈ p1 :=
                        splitAll_subset (by rw [hsp]; exact List.mem_cons_self ..)
                      have hsubb : ∀ c ∈ b, c ∈ p1 :=
                        splitAll_subset (by
                          rw [hsp]
                          exact List.mem_cons_of_mem _ (List.mem_cons_self ..))
                      have han : 0 ≤ num := by
                        apply pyInt?_nonneg ?_ ha
                        intro hmem
                        exact hm (hp1 '-' (hsuba '-' hmem))
                      have hbn : 0 ≤ den := by
                        apply pyInt?_nonneg ?_ hb
                        intro hmem
                        exact hm (hp1 '-' (hsubb '-' hmem))
                      have hwq : (0 : ℚ) ≤ (whole : ℚ) := by exact_mod_cast hwn
                      have haq : (0 : ℚ) ≤ (num : ℚ) := by exact_mod_cast han
                      have hbq : (0 : ℚ) ≤ (den : ℚ) := by exact_mod_cast hbn
                      exact add_nonneg hwq (div_nonneg haq hbq)
              · rw [hsp] at h
                simp at h
    · rcases hsp : splitAll '/' s with _ | ⟨a, rest1⟩
      · rw [hsp] at h
        simp at h
      · rcases rest1 with _ | ⟨b, rest2⟩
        · rw [hsp] at h
          simp at h
        · rcases rest2 with _ | ⟨x, rest3⟩
          · rw [hsp] at h
            dsimp only at h
            rcases ha : pyInt? a with _ | num <;> rw [ha] at h
            · simp at h
            · rcases hb : pyInt? b with _ | den <;> rw [hb] at h
              · simp at h
              · dsimp only at h
                split at h
                · simp at h
                · rw [Option.some_inj] at h
                  subst h
                  have hsuba : ∀ c ∈ a, c ∈ s :=
                    splitAll_subset (by rw [hsp]; exact List.mem_cons_self ..)
                  have hsubb : ∀ c ∈ b, c ∈ s :=
                    splitAll_subset (by
                      rw [hsp]
                      exact List.mem_cons_of_mem _ (List.mem_cons_self ..))
                  have han : 0 ≤ num := by
                    apply pyInt?_nonneg ?_ ha
                    intro hmem
                    exact hm (hsuba '-' hmem)
                  have hbn : 0 ≤ den := by
                    apply pyInt?_nonneg ?_ hb
                    intro hmem
                    exact hm (hsubb '-' hmem)
                  have haq : (0 : ℚ) ≤ (num : ℚ) := by exact_mod_cast han
                  have hbq : (0 : ℚ) ≤ (den : ℚ) := by exact_mod_cast hbn
                  exact div_nonneg haq hbq
          · rw [hsp] at h
            simp at h

theorem parse_quantity_nonneg {qs : String} (hchars : ∀ c ∈ qs.data, isNumChar c = true)
    {v : ℚ} (h : parse_quantity qs = some v) : 0 ≤ v := by
  unfold parse_quantity at h
  apply parse_quantityCore_nonneg ?_ h
  intro hmem
  unfold replaceCommaDot at hmem
  obtain ⟨c0, hc0, heq⟩ := List.mem_map.mp hmem
  have h1 : isNumChar c0 = true := hchars c0 (pyStripBoth_subset hc0)
  by_cases hc : c0 = ','
  · rw [if_pos hc] at heq
    exact absurd heq (by decide)
  · rw [if_neg hc] at heq
    exact isNumChar_ne_minus h1 heq

theorem process4_some {st : ParsedIngredient} {m : CapNQUN} {r : ParsedIngredient}
    (h : process_name_number_unit_notes st m = some r) :
    r.original = st.original ∧ r.name = some (pyStrip m.n) ∧
      r.quantity = parse_quantity m.q := by
  unfold process_name_number_unit_notes at h
  dsimp only at h
  by_cases hg : pyLower (pyStrip m.n) ∈ COMMON_UNITS
  · rw [if_pos hg] at h
    simp at h
  · rw [if_neg hg] at h
    rw [Option.some_inj] at h
    subst h
    refine ⟨?_, ?_, ?_⟩ <;> (split <;> first | rfl | (split <;> rfl))

theorem process5_some {st : ParsedIngredient} {nm : Option (List Char)} {m : CapNQ}
    {r : ParsedIngredient} (h : process_name_number st nm m = some r) :
    r.original = st.original ∧ r.name = some (pyStrip m.n) ∧
      r.quantity = parse_quantity m.q := by
  unfold process_name_number at h
  dsimp only at h
  by_cases hg : pyLower (pyStrip m.n) ∈ COMMON_UNITS
  · rw [if_pos hg] at h
    simp at h
  · rw [if_neg hg] at h
    rw [Option.some_inj] at h
    subst h
    exact ⟨rfl, rfl, rfl⟩

theorem parseCore6_original (st : ParsedIngredient) (nm : Option (List Char))
    (w : List Char) : (parseCore6 st nm w).original = st.original := by
  unfold parseCore6
  split
  · rfl
  · rfl

theorem parseCore6_name (st : ParsedIngredient) (nm : Option (List Char))
    (w : List Char) : (parseCore6 st nm w).name.isSome = true := by
  unfold parseCore6
  split
  · rfl
  · rfl

theorem parseCore6_quantity {st : ParsedIngredient} (nm : Option (List Char))
    (w : List Char) (hst : st.quantity = none) :
    (parseCore6 st nm w).quantity = none := by
  unfold parseCore6
  split
  · rfl
  · exact hst

theorem parseCore5_original (st : ParsedIngredient) (nm : Option (List Char))
    (w : List Char) : (parseCore5 st nm w).original = st.original := by
  unfold parseCore5
  rcases h5 : pattern5 w with _ | m
  · exact parseCore6_original st nm w
  · dsimp only
    rcases hp : process_name_number st nm m with _ | r
    · exact parseCore6_original st nm w
    · exact (process5_some hp).1

theorem parseCore5_name (st : ParsedIngredient) (nm : Option (List Char))
    (w : List Char) : (parseCore5 st nm w).name.isSome = true := by
  unfold parseCore5
  rcases h5 : pattern5 w with _ | m
  · exact parseCore6_name st nm w
  · dsimp only
    rcases hp : process_name_number st nm m with _ | r
    · exact parseCore6_name st nm w
    · rw [(process5_some hp).2.1]
      rfl

theorem parseCore5_quantity {st : ParsedIngredient} {nm : Option (List Char)}
    {w : List Char} (hst : st.quantity = none) {q : ℚ}
    (h : (parseCore5 st nm w).quantity = some q) :
    ∃ qs : String, (∀ c ∈ qs.data, isNumChar c = true) ∧
      parse_quantity qs = some q := by
  unfold parseCore5 at h
  rcases h5 : pattern5 w with _ | m <;> rw [h5] at h <;> dsimp only at h
  · rw [parseCore6_quantity nm w hst] at h
    simp at h
  · rcases hp : process_name_number st nm m with _ | r <;> rw [hp] at h <;>
      dsimp only at h
    · rw [parseCore6_quantity nm w hst] at h
      simp at h
    · refine ⟨m.q, pattern5_qchars h5, ?_⟩
      rw [← (process5_some hp).2.2]
      exact h

theorem parseCore_original (st : ParsedIngredient) (nm : Option (List Char))
    (w : List Char) : (parseCore st nm w).original = st.original := by
  unfold parseCore
  rcases h1 : pattern1 w with _ | m1
  · dsimp only
    rcases h2 : pattern2 w with _ | m2
    · dsimp only
      rcases h3 : pattern3 w with _ | m3
      · dsimp only
        rcases h4 : pattern4 w with _ | m4
        · exact parseCore5_original st nm w
        · dsimp only
          rcases hp : process_name_number_unit_notes st m4 with _ | r
          · exact parseCore5_original st nm w
          · exact (process4_some hp).1
      · rfl
    · rfl
  · rfl

theorem parseCore_name (st : ParsedIngredient) (nm : Option (List Char))
    (w : List Char) : (parseCore st nm w).name.isSome = true := by
  unfold parseCore
  rcases h1 : pattern1 w with _ | m1
  · dsimp only
    rcases h2 : pattern2 w with _ | m2
    · dsimp only
      rcases h3 : pattern3 w with _ | m3
      · dsimp only
        rcases h4 : pattern4 w with _ | m4
        · exact parseCore5_name st nm w
        · dsimp only
          rcases hp : process_name_number_unit_notes st m4 with _ | r
          · exact parseCore5_name st nm w
          · rw [(process4_some hp).2.1]
            rfl
      · rfl
    · rfl
  · rfl

theorem parseCore_quantity {st : ParsedIngredient} {nm : Option (List Char)}
    {w : List Char} (hst : st.quantity = none) {q : ℚ}
    (h : (parseCore st nm w).quantity = some q) :
    ∃ qs : String, (∀ c ∈ qs.data, isNumChar c = true) ∧
      parse_quantity qs = some q := by
  unfold parseCore at h
  rcases h1 : pattern1 w with _ | m1 <;> rw [h1] at h <;> dsimp only at h
  · rcases h2 : pattern2 w with _ | m2 <;> rw [h2] at h <;> dsimp only at h
    · rcases h3 : pattern3 w with _ | m3 <;> rw [h3] at h <;> dsimp only at h
      · rcases h4 : pattern4 w with _ | m4 <;> rw [h4] at h <;> dsimp only at h
        · exact parseCore5_quantity hst h
        · rcases hp : process_name_number_unit_notes st m4 with _ | r <;>
            rw [hp] at h <;> dsimp only at h
          · exact parseCore5_quantity hst h
          · refine ⟨m4.q, pattern4_qchars h4, ?_⟩
            rw [← (process4_some hp).2.2]
            exact h
      · exact ⟨m3.q, pattern3_qchars h3, h⟩
    · exact ⟨m2.q, pattern2_qchars h2, h⟩
  · exact ⟨m1.q, pattern1_qchars h1, h⟩

theorem parse_ingredient_string_original (x : String) :
    (parse_ingredient_string x).original = pyStrip x := by
  unfold parse_ingredient_string
  dsimp only
  split
  · rfl
  · rw [parseCore_original]

theorem parse_ingredient_string_name {x : String} (hx : pyStrip x ≠ "") :
    (parse_ingredient_string x).name.isSome = true := by
  unfold parse_ingredient_string
  dsimp only
  rw [if_neg hx]
  exact parseCore_name _ _ _

theorem parse_ingredient_string_quantity {x : String} {q : ℚ}
    (h : (parse_ingredient_string x).quantity = some q) : 0 ≤ q := by
  unfold parse_ingredient_string at h
  dsimp only at h
  split at h
  · simp at h
  · obtain ⟨qs, hchars, hq⟩ := parseCore_quantity rfl h
    exact parse_quantity_nonneg hchars hq

theorem parse_quantityCore_catch (s : List Char) :
    pyCatch (parse_quantityECore s) = parse_quantityCore s := by
  unfold parse_quantityCore parse_quantityECore
  split
  · unfold pyFloatE
    rcases pyFloat? s with _ | v
    · rfl
    · rfl
  · split
    · rcases hsf : splitFirst ' ' s with ⟨p0, po⟩
      rcases po with _ | p1
      · rfl
      · dsimp only
        unfold pyIntE
        rcases pyInt? p0 with _ | whole
        · rfl
        · dsimp only
          rcases splitAll '/' p1 with _ | ⟨a, _ | ⟨b, _ | ⟨c, tl⟩⟩⟩
          · rfl
          · rfl
          · dsimp only
            rcases pyInt? a with _ | num
            · rcases pyInt? b with _ | den
              · rfl
              · rfl
            · rcases pyInt? b with _ | den
              · rfl
              · dsimp only
                split
                · rfl
                · rfl
          · rfl
    · rcases splitAll '/' s with _ | ⟨a, _ | ⟨b, _ | ⟨c, tl⟩⟩⟩
      · rfl
      · rfl
      · dsimp only
        unfold pyIntE
        rcases pyInt? a with _ | num
        · rcases pyInt? b with _ | den
          · rfl
          · rfl
        · rcases pyInt? b with _ | den
          · rfl
          · dsimp only
            split
            · rfl
            · rfl
      · rfl

theorem parse_quantity_catch (q : String) :
    pyCatch (parse_quantityE q) = parse_quantity q :=
  parse_quantityCore_catch _

theorem process1E_ok (st : ParsedIngredient) (m : CapQUN) :
    process_number_unit_nameE st m = Except.ok (process_number_unit_name st m) := by
  unfold process_number_unit_nameE process_number_unit_name
  rw [parse_quantity_catch]

theorem process2E_ok (st : ParsedIngredient) (m : CapQUN) :
    process_unit_quantity_nameE st m = Except.ok (process_unit_quantity_name st m) := by
  unfold process_unit_quantity_nameE process_unit_quantity_name
  rw [parse_quantity_catch]

theorem process3E_ok (st : ParsedIngredient) (m : CapQN) :
    process_number_nameE st m = Except.ok (process_number_name st m) := by
  unfold process_number_nameE process_number_name
  rw [parse_quantity_catch]

theorem process4E_ok (st : ParsedIngredient) (m : CapNQUN) :
    process_name_number_unit_notesE st m =
      Except.ok (process_name_number_unit_notes st m) := by
  unfold process_name_number_unit_notesE process_name_number_unit_notes
  rw [parse_quantity_catch]
  dsimp only
  split
  · rfl
  · rfl

theorem process5E_ok (st : ParsedIngredient) (nm : Option (List Char)) (m : CapNQ) :
    process_name_numberE st nm m = Except.ok (process_name_number st nm m) := by
  unfold process_name_numberE process_name_number
  rw [parse_quantity_catch]
  dsimp only
  split
  · rfl
  · rfl

theorem process6E_ok (st : ParsedIngredient) (m : CapUN) :
    process_unit_nameE st m = Except.ok (process_unit_name st m) := by
  unfold process_unit_nameE process_unit_name
  rfl

theorem parseCore6E_ok (st : ParsedIngredient) (nm : Option (List Char))
    (w : List Char) : parseCore6E st nm w = Except.ok (parseCore6 st nm w) := by
  unfold parseCore6E parseCore6
  rcases pattern6 w with _ | m
  · rfl
  · exact process6E_ok st m

theorem parseCore5E_ok (st : ParsedIngredient) (nm : Option (List Char))
    (w : List Char) : parseCore5E st nm w = Except.ok (parseCore5 st nm w) := by
  unfold parseCore5E parseCore5
  rcases pattern5 w with _ | m
  · exact parseCore6E_ok st nm w
  · dsimp only
    rw [process5E_ok]
    rcases process_name_number st nm m with _ | r
    · exact parseCore6E_ok st nm w
    · rfl

theorem parseCoreE_ok (st : ParsedIngredient) (nm : Option (List Char))
    (w : List Char) : parseCoreE st nm w = Except.ok (parseCore st nm w) := by
  unfold parseCoreE parseCore
  rcases pattern1 w with _ | m1
  · dsimp only
    rcases pattern2 w with _ | m2
    · dsimp only
      rcases pattern3 w with _ | m3
      · dsimp only
        rcases pattern4 w with _ | m4
        · exact parseCore5E_ok st nm w
        · dsimp only
          rw [process4E_ok]
          rcases process_name_number_unit_notes st m4 with _ | r
          · exact parseCore5E_ok st nm w
          · rfl
      · exact process3E_ok st m3
    · exact process2E_ok st m2
  · exact process1E_ok st m1

theorem parse_ingredient_stringE_ok (x : String) :
    parse_ingredient_stringE x = Except.ok (parse_ingredient_string x) := by
  unfold parse_ingredient_stringE parse_ingredient_string
  dsimp only
  split
  · rfl
  · exact parseCoreE_ok _ _ _

theorem stripL_append_slash0 :
    ∀ xs : List Char, (xs ++ ['/', '0']).dropWhile isPySpace =
      xs.dropWhile isPySpace ++ ['/', '0'] := by
  intro xs
  induction xs with
  | nil => decide
  | cons x xs ih =>
    rw [List.cons_append, List.dropWhile_cons, List.dropWhile_cons]
    split
    · exact ih
    · rfl

theorem pyStripBoth_append_slash0 (xs : List Char) :
    pyStripBoth (xs ++ ['/', '0']) = xs.dropWhile isPySpace ++ ['/', '0'] := by
  unfold pyStripBoth
  rw [stripL_append_slash0]
  rw [List.reverse_append]
  rw [show (['/', '0'] : List Char).reverse = '0' :: '/' :: [] from rfl]
  rw [List.cons_append, List.dropWhile_cons]
  rw [if_neg (by decide)]
  simp

theorem replaceCommaDot_append_slash0 (u : List Char) :
    replaceCommaDot (u ++ ['/', '0']) = replaceCommaDot u ++ ['/', '0'] := by
  unfold replaceCommaDot
  rw [List.map_append]
  rfl

theorem splitAllAux_no_sep (sep : Char) :
    ∀ (cs acc : List Char), (∀ c ∈ cs, c ≠ sep) →
      splitAllAux sep cs acc = [acc.reverse ++ cs] := by
  intro cs
  induction cs with
  | nil => intro acc _; simp [splitAllAux]
  | cons c cs ih =>
    intro acc hc
    rw [splitAllAux]
    rw [if_neg (hc c (List.mem_cons_self ..))]
    rw [ih (c :: acc) (fun d hd => hc d (List.mem_cons_of_mem _ hd))]
    simp

theorem splitAllAux_append_sep (sep : Char) :
    ∀ (w acc ys : List Char), (∀ c ∈ w, c ≠ sep) →
      splitAllAux sep (w ++ sep :: ys) acc =
        (acc.reverse ++ w) :: splitAllAux sep ys [] := by
  intro w
  induction w with
  | nil =>
    intro acc ys _
    rw [List.nil_append, splitAllAux, if_pos rfl]
    simp
  | cons c w ih =>
    intro acc ys hc
    rw [List.cons_append, splitAllAux]
    rw [if_neg (hc c (List.mem_cons_self ..))]
    rw [ih (c :: acc) ys (fun d hd => hc d (List.mem_cons_of_mem _ hd))]
    simp

theorem splitAll_w_slash0 {w : List Char} (hw : ∀ c ∈ w, c ≠ '/') :
    splitAll '/' (w ++ ['/', '0']) = [w, ['0']] := by
  unfold splitAll
  rw [show (['/', '0'] : List Char) = '/' :: ['0'] from rfl]
  rw [splitAllAux_append_sep '/' w [] ['0'] hw]
  rw [splitAllAux_no_sep '/' ['0'] [] (by decide)]
  simp

theorem parse_quantity_append_slash0 {s : String} (h1 : ('/' : Char) ∉ s.data)
    (h2 : (' ' : Char) ∉ s.data) : parse_quantity (s ++ "/0") = none := by
  unfold parse_quantity
  rw [data_append]
  rw [show ("/0" : String).data = ['/', '0'] from rfl]
  rw [pyStripBoth_append_slash0]
  rw [replaceCommaDot_append_slash0]
  have hsub : ∀ c ∈ replaceCommaDot (s.data.dropWhile isPySpace),
      c ≠ '/' ∧ c ≠ ' ' := by
    intro c hc
    obtain ⟨c0, hc0, heq⟩ := List.mem_map.mp hc
    have hc0s : c0 ∈ s.data := mem_of_mem_dropWhile hc0
    by_cases hcomma : c0 = ','
    · rw [if_pos hcomma] at heq
      subst heq
      exact ⟨by decide, by decide⟩
    · rw [if_neg hcomma] at heq
      subst heq
      exact ⟨fun he => h1 (he ▸ hc0s), fun he => h2 (he ▸ hc0s)⟩
  unfold parse_quantityCore
  have hcont : (replaceCommaDot (s.data.dropWhile isPySpace) ++ ['/', '0']).contains '/' = true := by
    rw [List.contains_eq_any_beq]
    simp
  rw [if_neg (not_not_intro hcont)]
  have hcont2 : (replaceCommaDot (s.data.dropWhile isPySpace) ++ ['/', '0']).contains ' ' = false := by
    rw [List.contains_eq_any_beq]
    simp only [List.any_eq_false, List.mem_append, beq_iff_eq]
    rintro c (hc | hc)
    · exact fun he => (hsub c hc).2 he.symm
    · intro he
      subst he
      simp at hc
  have hcond2 : ¬ ((replaceCommaDot (s.data.dropWhile isPySpace) ++ ['/', '0']).contains ' ' = true) := by
    rw [hcont2]
    exact Bool.false_ne_true
  rw [if_neg hcond2]
  rw [splitAll_w_slash0 (fun c hc => (hsub c hc).1)]
  dsimp only
  rw [show pyInt? ['0'] = some 0 from by decide]
  rcases pyInt? (replaceCommaDot (s.data.dropWhile isPySpace)) with _ | num
  · rfl
  · dsimp only
    rw [if_pos rfl]

/-! ## Claims -/

/-- C1, counterexample: the claim `parse(x).original == x` for every input
fails at `" a"`: the source sets `original` to `line.strip()`, so the
leading space is removed. -/
theorem C1_counterexample : (parse_ingredient_string " a").original ≠ " a" := by
  with_unfolding_all decide

/-- C1 (amended): for every input string `x`, the record's `original` field
is `x` stripped of leading and trailing whitespace (`x.strip()`), and no
later step of the parse modifies it; in particular `parse(x).original == x`
whenever `x` carries no surrounding whitespace. -/
theorem C1_original_stripped :
    ∀ x : String, (parse_ingredient_string x).original = pyStrip x :=
  parse_ingredient_string_original

/-- C2, counterexample: the claim that `name` is non-empty for every
non-empty input fails at `"(tritato)"`: pre-processing removes the
parenthetical, the working line becomes empty, no pattern matches, and the
fallback assigns the empty working line to `name`. -/
theorem C2_counterexample :
    ("(tritato)" : String) ≠ "" ∧
      (parse_ingredient_string "(tritato)").name = some "" := by
  constructor
  · with_unfolding_all decide
  · with_unfolding_all decide

/-- C2 (amended): for every input whose stripped form is non-empty the
returned record's `name` field is present (not null) — every processor and
the fallback assign it — but it may be the empty string when pre-processing
consumes the entire line (e.g. a pure parenthetical such as `"(tritato)"`). -/
theorem C2_name_present :
    ∀ x : String, pyStrip x ≠ "" → (parse_ingredient_string x).name ≠ none := by
  intro x hx hnone
  have h := parse_ingredient_string_name hx
  rw [hnone] at h
  simp at h

/-- Witness for C2_name_present at the concrete input `"sale"`. -/
theorem C2_name_present_witness :
    pyStrip "sale" ≠ "" ∧ (parse_ingredient_string "sale").name ≠ none :=
  ⟨by with_unfolding_all decide,
   C2_name_present "sale" (by with_unfolding_all decide)⟩

/-- C3: `parse_ingredient_string` terminates normally on every input — its
exception-tracking evaluation always returns `Except.ok` of the parsed
record — and `_parse_quantity` is the `try/except`-caught form of its
raising body: the catch of `parse_quantityE` (whose `int`/`float`
conversions raise `ValueError` on unparseable fragments) equals
`parse_quantity`, so unparseable fragments yield `none` rather than a
propagated exception. -/
theorem C3_total_no_raise :
    ∀ (x q : String),
      parse_ingredient_stringE x = Except.ok (parse_ingredient_string x) ∧
        parse_quantity q = pyCatch (parse_quantityE q) :=
  fun x q => ⟨parse_ingredient_stringE_ok x, (parse_quantity_catch q).symm⟩

/-- C4: the numeric-literal parser maps `"1/2"` to `0.5`, `"1 1/2"` to
`1.5`, `"1,5"` (decimal comma) and `"1.5"` to `1.5`, `"x/0"` to no value,
and any fraction with denominator zero — any slash-free, space-free
numerator text followed by `"/0"` — to no value rather than an exception. -/
theorem C4_parse_quantity_values :
    parse_quantity "1/2" = some (0.5 : ℚ) ∧
    parse_quantity "1 1/2" = some (1.5 : ℚ) ∧
    parse_quantity "1,5" = some (1.5 : ℚ) ∧
    parse_quantity "1.5" = some (1.5 : ℚ) ∧
    parse_quantity "x/0" = none ∧
    ∀ s : String, ('/' : Char) ∉ s.data → (' ' : Char) ∉ s.data →
      parse_quantity (s ++ "/0") = none := by
  refine ⟨?_, ?_, ?_, ?_, ?_, fun s h1 h2 => parse_quantity_append_slash0 h1 h2⟩
  · with_unfolding_all decide
  · with_unfolding_all decide
  · with_unfolding_all decide
  · with_unfolding_all decide
  · with_unfolding_all decide

/-- Witness for C4_parse_quantity_values' zero-denominator clause at the
concrete numerator `"7"`. -/
theorem C4_parse_quantity_values_witness :
    (('/' : Char) ∉ ("7" : String).data) ∧
      ((' ' : Char) ∉ ("7" : String).data) ∧
      parse_quantity ("7" ++ "/0") = none :=
  ⟨by with_unfolding_all decide, by with_unfolding_all decide,
   C4_parse_quantity_values.2.2.2.2.2 "7" (by with_unfolding_all decide)
     (by with_unfolding_all decide)⟩

/-- C5, evaluation at the failing inputs: the three accepted spellings of
the to-taste marker do not all normalize to `"qb"`.  Because
`rstrip('.')` runs before the `if unit == 'q.b.'` comparison, that
canonicalization branch is dead: `"q.b. sale"` and `"q.b sale"` yield unit
`"q.b"`, and only `"qb sale"` yields `"qb"`. -/
theorem C5_qb_spellings_eval :
    (parse_ingredient_string "q.b. sale").unit = some "q.b" ∧
    (parse_ingredient_string "q.b sale").unit = some "q.b" ∧
    (parse_ingredient_string "qb sale").unit = some "qb" := by
  refine ⟨?_, ?_, ?_⟩
  · with_unfolding_all decide
  · with_unfolding_all decide
  · with_unfolding_all decide

/-- C6, evaluation at the failing input: whitespace around `/` is captured
by `NUMBER_PATTERN` but breaks `_parse_quantity`
(`"1 / 2".split(' ', 1)` makes `int("")` raise), so `"1 / 2"` yields no
value while `"1/2"` yields `0.5`. -/
theorem C6_spaced_fraction_eval :
    parse_quantity "1 / 2" = none ∧ parse_quantity "1/2" = some (0.5 : ℚ) := by
  constructor
  · with_unfolding_all decide
  · with_unfolding_all decide

/-- C7, counterexample: `"Farina 00 100 g"` does not parse to
name `"Farina 00"`, quantity `100.0`, unit `"g"`, notes absent. -/
theorem C7_counterexample :
    ¬ ((parse_ingredient_string "Farina 00 100 g").name = some "Farina 00" ∧
       (parse_ingredient_string "Farina 00 100 g").quantity = some (100.0 : ℚ) ∧
       (parse_ingredient_string "Farina 00 100 g").unit = some "g" ∧
       (parse_ingredient_string "Farina 00 100 g").notes = none) := by
  with_unfolding_all decide

/-- C7 (amended): on `"Farina 00 100 g"` pattern 4's lazy name group stops
at the first whitespace-number boundary, so the line parses to
name `"Farina"`, quantity `0.0` (from `"00"`), no unit, and
notes `"100 g"`. -/
theorem C7_amended :
    parse_ingredient_string "Farina 00 100 g" =
      ⟨some (0.0 : ℚ), none, some "Farina", some "100 g", "Farina 00 100 g"⟩ := by
  with_unfolding_all decide

/-- C8: `"g 100 farina"` parses via the unit-before-quantity pattern to
name `"farina"`, quantity `100.0`, unit `"g"`, notes absent — in
particular the line is not parsed with `"g"` as the name. -/
theorem C8_unit_first :
    parse_ingredient_string "g 100 farina" =
      ⟨some (100.0 : ℚ), some "g", some "farina", none, "g 100 farina"⟩ := by
  with_unfolding_all decide

/-- C9, counterexample: `"Speck tagliato grosso, 100 g"` does not parse to
name `"Speck"` with notes `"tagliato grosso"`. -/
theorem C9_counterexample :
    ¬ ((parse_ingredient_string "Speck tagliato grosso, 100 g").name =
         some "Speck" ∧
       (parse_ingredient_string "Speck tagliato grosso, 100 g").notes =
         some "tagliato grosso") := by
  with_unfolding_all decide

/-- C9 (amended): the comma/hyphen split described by the spec is commented
out in the source, so `"Speck tagliato grosso, 100 g"` parses via pattern 4
(whose `,?` consumes the comma) to name `"Speck tagliato grosso"`,
quantity `100.0`, unit `"g"`, and no notes. -/
theorem C9_amended :
    parse_ingredient_string "Speck tagliato grosso, 100 g" =
      ⟨some (100.0 : ℚ), some "g", some "Speck tagliato grosso", none,
       "Speck tagliato grosso, 100 g"⟩ := by
  with_unfolding_all decide

/-- C10: whenever the returned record carries a quantity, that quantity is
non-negative: every quantity is produced by `_parse_quantity` on a
`NUMBER_PATTERN` capture, whose signless grammar admits only digits,
separators, slashes and whitespace. -/
theorem C10_quantity_nonneg :
    ∀ (x : String) (q : ℚ),
      (parse_ingredient_string x).quantity = some q → 0 ≤ q :=
  fun _ _ h => parse_ingredient_string_quantity h

/-- Witness for C10_quantity_nonneg at the concrete input `"2 mele"`. -/
theorem C10_quantity_nonneg_witness :
    (parse_ingredient_string "2 mele").quantity = some 2 ∧ (0 : ℚ) ≤ 2 :=
  ⟨by with_unfolding_all decide,
   C10_quantity_nonneg "2 mele" 2 (by with_unfolding_all decide)⟩
